import Mathlib

/-!
Verification of the Log Broadcaster subsystem and the VRF module of this
repository.

The Log Broadcaster implementation itself (package
core/services/eth, referenced by the tests in src/unnamed/part_001 and by
core/services/eth/contracts/FluxAggregator.go) is not among the sampled
source files; only its tests and callers are.  Following the rules for
missing code, the definitions below for the broadcaster, the consumption
ledger, the channel combinator and the decoding log listener are modelled
from the spec (spec.md sections 2 through 4), adjusted only where the tests
in src/unnamed/part_001 pin down concrete behaviour (notably the backfill
lower bound, see the comments at fromBlockOf).

The VRF module (src/core/services/vrf/vrf.go) is embedded faithfully,
parametrised over the elliptic curve and the hash primitives that live in
the secp256k1 and utils packages (also absent from src/).
-/

set_option maxRecDepth 4000

/-! ## Data model: LogEvent and its identity

Modelled from the spec: section 3, LogEvent.  A received chain log with
contract address, block hash, block number, transaction index, log index,
topic list and opaque payload bytes.  Identity for deduplication is the
triple (block hash, transaction index, log index). -/

structure LogEvent where
  address : Nat
  blockHash : Nat
  blockNumber : Nat
  txIndex : Nat
  logIndex : Nat
  topics : List Nat
  payload : List Nat
deriving DecidableEq, Repr

/-- Modelled from the spec: identity for deduplication purposes is the triple
(block hash, transaction index, log index), not block number alone. -/
def LogEvent.identity (e : LogEvent) : Nat × Nat × Nat :=
  (e.blockHash, e.txIndex, e.logIndex)

/-- A log as produced in the tests of src/unnamed/part_001 at line 421: block
number n with a fresh (hence distinct) block hash; we use n itself as the
hash value since all block numbers there are distinct. -/
def mkLog (n : Nat) : LogEvent :=
  { address := 0, blockHash := n, blockNumber := n, txIndex := 0, logIndex := 0
    topics := [], payload := [] }

/-! ## Consumption Ledger

Modelled from the spec: section 4.2.  WasAlreadyConsumed and MarkConsumed
over a durable store of ConsumptionRecord tuples (log identity, consumer
identity); at most one record per key; MarkConsumed is insert-if-absent
(a repeated uniqueness violation is ignored, hence no error on repeat).
The ledger value itself is the durable state: it is what survives a process
restart. -/

abbrev LogId := Nat × Nat × Nat

abbrev Ledger := List (LogId × Nat)

def wasAlreadyConsumed (led : Ledger) (id : LogId) (c : Nat) : Bool :=
  decide ((id, c) ∈ led)

def markConsumed (led : Ledger) (id : LogId) (c : Nat) : Ledger :=
  if (id, c) ∈ led then led else (id, c) :: led

/-- Apply a sequence of MarkConsumed calls (the only ledger mutations). -/
def applyMarks (led : Ledger) (ops : List (LogId × Nat)) : Ledger :=
  ops.foldl (fun l p => markConsumed l p.1 p.2) led

theorem wasAlreadyConsumed_markConsumed_self (led : Ledger) (id : LogId) (c : Nat) :
    wasAlreadyConsumed (markConsumed led id c) id c = true := by
  unfold wasAlreadyConsumed markConsumed
  split
  · simpa using ‹(id, c) ∈ led›
  · simp

theorem wasAlreadyConsumed_markConsumed_mono (led : Ledger) (id id2 : LogId) (c c2 : Nat)
    (h : wasAlreadyConsumed led id c = true) :
    wasAlreadyConsumed (markConsumed led id2 c2) id c = true := by
  unfold wasAlreadyConsumed markConsumed at *
  split
  · exact h
  · simp at h
    simp [h]

theorem wasAlreadyConsumed_applyMarks_mono (ops : List (LogId × Nat)) (led : Ledger)
    (id : LogId) (c : Nat) (h : wasAlreadyConsumed led id c = true) :
    wasAlreadyConsumed (applyMarks led ops) id c = true := by
  induction ops generalizing led with
  | nil => exact h
  | cons p rest ih =>
      exact ih _ (wasAlreadyConsumed_markConsumed_mono _ _ _ _ _ h)

theorem markConsumed_count_le_one (led : Ledger) (id : LogId) (c : Nat)
    (h : ∀ k : LogId × Nat, led.countP (fun r => decide (r = k)) ≤ 1) :
    ∀ k : LogId × Nat, (markConsumed led id c).countP (fun r => decide (r = k)) ≤ 1 := by
  intro k
  unfold markConsumed
  split
  · exact h k
  · rename_i hmem
    rw [List.countP_cons]
    by_cases hk : ((id, c) : LogId × Nat) = k
    · subst hk
      have : led.countP (fun r => decide (r = (id, c))) = 0 := by
        rw [List.countP_eq_zero]
        intro a ha
        simp only [decide_eq_true_eq]
        intro hcontra
        exact hmem (hcontra ▸ ha)
      simp [this]
    · simp [hk]
      exact h k

/-! ## Dispatch

Modelled from the spec: section 4.1, Dispatch.  For every event popped off
the merged stream, and for every listener registered on the address of that
event, the broadcaster independently checks WasAlreadyConsumed(event
identity, listener.Consumer()); if already consumed the listener is skipped
entirely (HandleLog is not called); otherwise HandleLog(broadcast, nil) is
invoked and the cooperating listener marks the log consumed through the
broadcast (as the test helper handleLogBroadcast of src/unnamed/part_001
lines 41 to 47 does). -/

structure Registration where
  address : Nat
  listenerId : Nat
  consumer : Nat
deriving DecidableEq, Repr

structure Delivery where
  listenerId : Nat
  consumer : Nat
  event : LogEvent
deriving DecidableEq, Repr

structure DispatchState where
  ledger : Ledger
  delivered : List Delivery
deriving DecidableEq, Repr

def deliverTo (e : LogEvent) (s : DispatchState) (r : Registration) : DispatchState :=
  if r.address = e.address then
    if wasAlreadyConsumed s.ledger e.identity r.consumer then s
    else { ledger := markConsumed s.ledger e.identity r.consumer
           delivered := s.delivered ++ [⟨r.listenerId, r.consumer, e⟩] }
  else s

def dispatchEvent (regs : List Registration) (e : LogEvent) (s : DispatchState) : DispatchState :=
  regs.foldl (deliverTo e) s

def dispatchAll (regs : List Registration) (stream : List LogEvent) : DispatchState :=
  stream.foldl (fun s e => dispatchEvent regs e s) ⟨[], []⟩

/-- The sequence of logs a given listener has handled, in delivery order. -/
def deliveredTo (s : DispatchState) (lid : Nat) : List LogEvent :=
  (s.delivered.filter (fun d => d.listenerId == lid)).map (fun d => d.event)

/-- Invariant of the dispatch loop: every delivery is recorded in the ledger,
every delivery stems from a current registration, and two deliveries to the
same consumer always carry distinct log identities. -/
def GoodState (regs : List Registration) (s : DispatchState) : Prop :=
  (∀ d ∈ s.delivered, wasAlreadyConsumed s.ledger d.event.identity d.consumer = true)
  ∧ (∀ d ∈ s.delivered, ∃ r ∈ regs, r.listenerId = d.listenerId ∧ r.consumer = d.consumer)
  ∧ List.Pairwise (fun d1 d2 => d1.consumer = d2.consumer → d1.event.identity ≠ d2.event.identity)
      s.delivered

theorem deliverTo_good (regs : List Registration) (s : DispatchState) (e : LogEvent)
    (r : Registration) (hr : r ∈ regs) (h : GoodState regs s) :
    GoodState regs (deliverTo e s r) := by
  obtain ⟨hled, hprov, hpair⟩ := h
  unfold deliverTo
  split
  · split
    · exact ⟨hled, hprov, hpair⟩
    · rename_i hnc
      refine ⟨?_, ?_, ?_⟩
      · intro d hd
        simp only [List.mem_append, List.mem_singleton] at hd
        rcases hd with hd | hd
        · exact wasAlreadyConsumed_markConsumed_mono _ _ _ _ _ (hled d hd)
        · subst hd
          exact wasAlreadyConsumed_markConsumed_self _ _ _
      · intro d hd
        simp only [List.mem_append, List.mem_singleton] at hd
        rcases hd with hd | hd
        · exact hprov d hd
        · subst hd
          exact ⟨r, hr, rfl, rfl⟩
      · rw [List.pairwise_append]
        refine ⟨hpair, List.pairwise_singleton _ _, ?_⟩
        intro d1 hd1 d2 hd2 hc hid
        simp only [List.mem_singleton] at hd2
        subst hd2
        have := hled d1 hd1
        rw [hc, hid] at this
        simp only at this
        rw [this] at hnc
        exact hnc rfl
  · exact ⟨hled, hprov, hpair⟩

theorem foldl_deliverTo_good (regs : List Registration) (e : LogEvent) :
    ∀ (l : List Registration) (s : DispatchState), (∀ r ∈ l, r ∈ regs) → GoodState regs s →
      GoodState regs (l.foldl (deliverTo e) s)
  | [], _, _, h => h
  | r :: rest, s, hsub, h => by
      rw [List.foldl_cons]
      exact foldl_deliverTo_good regs e rest _ (fun x hx => hsub x (List.mem_cons_of_mem _ hx))
        (deliverTo_good regs s e r (hsub r (List.mem_cons_self _ _)) h)

theorem dispatchAll_good (regs : List Registration) (stream : List LogEvent) :
    GoodState regs (dispatchAll regs stream) := by
  have base : GoodState regs ⟨[], []⟩ := by
    refine ⟨?_, ?_, ?_⟩ <;> simp
  unfold dispatchAll
  generalize hinit : (⟨[], []⟩ : DispatchState) = init
  rw [hinit] at base
  clear hinit
  induction stream generalizing init with
  | nil => exact base
  | cons e rest ih =>
      rw [List.foldl_cons]
      exact ih _ (foldl_deliverTo_good regs e regs init (fun r hr => hr) base)

/-- C3: Consumption Ledger contract.  Once MarkConsumed(k) has returned
(without error: the modelled MarkConsumed is total, a repeated insert is
ignored rather than failing), every subsequent WasAlreadyConsumed(k) call
returns true, no matter how many further MarkConsumed calls intervene; the
ledger value is the durable state, so this persistence also covers a process
restart.  MarkConsumed is idempotent: marking the same key twice equals
marking it once, and any sequence of MarkConsumed calls starting from the
empty store leaves at most one ConsumptionRecord per key. -/
theorem C3_consumption_ledger_contract :
    (∀ (led : Ledger) (id : LogId) (c : Nat) (ops : List (LogId × Nat)),
      wasAlreadyConsumed (applyMarks (markConsumed led id c) ops) id c = true)
    ∧ (∀ (led : Ledger) (id : LogId) (c : Nat),
      markConsumed (markConsumed led id c) id c = markConsumed led id c)
    ∧ (∀ (ops : List (LogId × Nat)) (k : LogId × Nat),
      (applyMarks [] ops).countP (fun r => decide (r = k)) ≤ 1) := by
  refine ⟨?_, ?_, ?_⟩
  · intro led id c ops
    exact wasAlreadyConsumed_applyMarks_mono _ _ _ _
      (wasAlreadyConsumed_markConsumed_self _ _ _)
  · intro led id c
    unfold markConsumed
    split
    · simp [*]
    · simp
  · intro ops
    have main : ∀ (ops : List (LogId × Nat)) (led : Ledger),
        (∀ k : LogId × Nat, led.countP (fun r => decide (r = k)) ≤ 1) →
        ∀ k : LogId × Nat, (applyMarks led ops).countP (fun r => decide (r = k)) ≤ 1 := by
      intro ops
      induction ops with
      | nil => intro led h k; exact h k
      | cons p rest ih =>
          intro led h k
          exact ih _ (markConsumed_count_le_one led p.1 p.2 h) k
    exact main ops [] (by simp)

/-- C3 witness. -/
theorem C3_consumption_ledger_contract_witness :
    wasAlreadyConsumed
      (applyMarks (markConsumed [] (1, 2, 3) 4) [((9, 9, 9), 4)]) (1, 2, 3) 4 = true :=
  C3_consumption_ledger_contract.1 [] (1, 2, 3) 4 [((9, 9, 9), 4)]


/-- C1: exactly-once delivery per listener.  The modelled dispatch loop
(deliverTo, dispatchEvent, dispatchAll) checks WasAlreadyConsumed(identity,
Consumer()) for every listener registered on the address of each event
popped off the merged stream, skips the listener entirely (no HandleLog
call) when the record exists, and otherwise delivers, the cooperating
listener recording the consumption.  Proved: for any registry in which a
listener identity determines its consumer identity, and for ANY merged
stream of log events, including the deliberate backfill/live overlap at a
resubscribe boundary (which re-enqueues events with equal identities), the
sequence of logs a listener handles never repeats a log identity. -/
theorem C1_exactly_once_per_listener (regs : List Registration) (stream : List LogEvent)
    (lid : Nat)
    (hcons : ∀ r1, r1 ∈ regs → ∀ r2, r2 ∈ regs →
      r1.listenerId = r2.listenerId → r1.consumer = r2.consumer) :
    ((deliveredTo (dispatchAll regs stream) lid).map LogEvent.identity).Nodup := by
  obtain ⟨hled, hprov, hpair⟩ := dispatchAll_good regs stream
  unfold deliveredTo
  rw [List.map_map]
  set dl := (dispatchAll regs stream).delivered with hdl
  have hsub : (dl.filter (fun d => d.listenerId == lid)).Sublist dl := List.filter_sublist _
  have hpairf := hpair.sublist hsub
  have hstrong : (dl.filter (fun d => d.listenerId == lid)).Pairwise
      (fun d1 d2 => d1.event.identity ≠ d2.event.identity) := by
    refine hpairf.imp_of_mem ?_
    intro d1 d2 h1 h2 hrel
    have hl1 : d1.listenerId = lid := by simpa using (List.of_mem_filter h1)
    have hl2 : d2.listenerId = lid := by simpa using (List.of_mem_filter h2)
    obtain ⟨r1, hr1, hrl1, hrc1⟩ := hprov d1 (hsub.mem h1)
    obtain ⟨r2, hr2, hrl2, hrc2⟩ := hprov d2 (hsub.mem h2)
    have : r1.listenerId = r2.listenerId := by rw [hrl1, hrl2, hl1, hl2]
    have hceq : d1.consumer = d2.consumer := by
      rw [← hrc1, ← hrc2]
      exact hcons r1 hr1 r2 hr2 this
    exact hrel hceq
  exact hstrong.map _ (fun a b h => fun heq => h (by simpa [Function.comp] using heq))

/-- C1 witness: a two-listener registry on one address fed a stream that
repeats a log identity (the overlap of a backfill with an already delivered
batch). -/
theorem C1_exactly_once_per_listener_witness :
    ((deliveredTo (dispatchAll [⟨0, 0, 10⟩, ⟨0, 1, 11⟩] [mkLog 1, mkLog 2, mkLog 1]) 0).map
      LogEvent.identity).Nodup :=
  C1_exactly_once_per_listener [⟨0, 0, 10⟩, ⟨0, 1, 11⟩] [mkLog 1, mkLog 2, mkLog 1] 0
    (by decide)

/-! Reorg scenario of TestLogBroadcaster_ProcessesLogsFromReorgs
(src/unnamed/part_001 lines 679 to 746): five logs on one address, where the
fourth and fifth repeat block numbers 1 and 2 with fresh block hashes. -/

def reorgLog (h bn : Nat) : LogEvent :=
  { address := 7, blockHash := h, blockNumber := bn, txIndex := 0, logIndex := 0
    topics := [], payload := [] }

def reorgStream : List LogEvent :=
  [reorgLog 100 0, reorgLog 101 1, reorgLog 102 2, reorgLog 103 1, reorgLog 104 2]

def reorgRegs : List Registration := [⟨7, 0, 0⟩]

/-- C2: reorg redelivery.  Two log events with equal block number but
different block hashes have distinct identities (the identity triple starts
with the block hash), and in the modelled reorg scenario of
TestLogBroadcaster_ProcessesLogsFromReorgs all five logs, including the two
post-reorg logs repeating block numbers 1 and 2 under new hashes, are
delivered to the registered listener in order: the second log at a height is
not deduplicated against the first. -/
theorem C2_reorg_redelivery :
    (∀ e1 e2 : LogEvent, e1.blockNumber = e2.blockNumber → e1.blockHash ≠ e2.blockHash →
      e1.identity ≠ e2.identity)
    ∧ deliveredTo (dispatchAll reorgRegs reorgStream) 0 = reorgStream := by
  constructor
  · intro e1 e2 _ hne heq
    exact hne (congrArg Prod.fst heq)
  · decide

/-- C2 witness: the two reorg logs at height 1 have distinct identities. -/
theorem C2_reorg_redelivery_witness :
    (reorgLog 101 1).identity ≠ (reorgLog 103 1).identity :=
  C2_reorg_redelivery.1 (reorgLog 101 1) (reorgLog 103 1) rfl (by decide)

/-! ## Channel Combinator (appendLogChannel)

Modelled from the spec: section 4.4 and section 2.  The implementation of
appendLogChannel (exposed to the tests as ExposedAppendLogChannel, exercised
by TestAppendLogChannel in src/unnamed/part_001 lines 559 to 620) is not in
src/.  A stream is modelled by the finite sequence of elements it has
emitted so far together with a closed flag; the combinator forwards the
whole first input (in arrival order) before any element of the second, and
its output closes exactly when both inputs have closed. -/

structure LogStream where
  elems : List LogEvent
  closed : Bool
deriving DecidableEq, Repr

def appendLogChannel (ch1 ch2 : LogStream) : LogStream :=
  { elems := if ch1.closed then ch1.elems ++ ch2.elems else ch1.elems
    closed := ch1.closed && ch2.closed }

/-- C6: Channel Combinator.  The combined output closes exactly when both
inputs have closed (so never before every input has closed); while the
first input is still open no element of the second is emitted; for two
closed inputs the output is the first input followed by the second, each in
arrival order; and the operation composes: chaining the three upstream
sequences of block numbers 1..5, 6..10 and 11..15 pairwise yields exactly
1..15 in order, with the merged output still open whenever any of the three
sources is still open (shown for the third). -/
theorem C6_channel_combinator :
    (∀ ch1 ch2 : LogStream, (appendLogChannel ch1 ch2).closed = (ch1.closed && ch2.closed))
    ∧ (∀ ch1 ch2 : LogStream, ch1.closed = false →
        (appendLogChannel ch1 ch2).elems = ch1.elems)
    ∧ (∀ l1 l2 : List LogEvent,
        appendLogChannel ⟨l1, true⟩ ⟨l2, true⟩ = ⟨l1 ++ l2, true⟩)
    ∧ appendLogChannel
        (appendLogChannel ⟨[1, 2, 3, 4, 5].map mkLog, true⟩ ⟨[6, 7, 8, 9, 10].map mkLog, true⟩)
        ⟨[11, 12, 13, 14, 15].map mkLog, true⟩
      = ⟨[1, 2, 3, 4, 5, 6, 7, 8, 9, 10, 11, 12, 13, 14, 15].map mkLog, true⟩
    ∧ (appendLogChannel
        (appendLogChannel ⟨[1, 2, 3, 4, 5].map mkLog, true⟩ ⟨[6, 7, 8, 9, 10].map mkLog, true⟩)
        ⟨[11, 12].map mkLog, false⟩).closed = false := by
  refine ⟨?_, ?_, ?_, by decide, by decide⟩
  · intro ch1 ch2
    rfl
  · intro ch1 ch2 h
    simp [appendLogChannel, h]
  · intro l1 l2
    simp [appendLogChannel]

/-- C6 witness for the clause about a still-open first input. -/
theorem C6_channel_combinator_witness :
    (appendLogChannel ⟨[mkLog 1], false⟩ ⟨[mkLog 2], true⟩).elems = [mkLog 1] :=
  C6_channel_combinator.2.1 ⟨[mkLog 1], false⟩ ⟨[mkLog 2], true⟩ rfl

/-! Backfill scenarios of TestLogBroadcaster_ReceivesAllLogsWhenResubscribing
(src/unnamed/part_001 lines 418 to 557): an initial live batch, then a
resubscribe whose backfill batch is fed into the output stream before the
new live batch via the Channel Combinator, all deduplicated per listener by
the Consumption Ledger. -/

def b4regs : List Registration := [⟨0, 0, 0⟩]

def b4merge (batch1 backfill live : List Nat) : List LogEvent :=
  (appendLogChannel
    (appendLogChannel ⟨batch1.map mkLog, true⟩ ⟨backfill.map mkLog, true⟩)
    ⟨live.map mkLog, true⟩).elems

/-- C4: backfill correctness across a resubscribe.  Feeding the modelled
dispatch loop the combinator merge of initial batch, backfill batch and
post-resubscribe live batch delivers, per listener, exactly the union in
ascending block-height order with no gaps and no duplicate identities:
initial 1,2 + backfill 6,7,12,15 + live 16,17 yields 1,2,6,7,12,15,16,17,
and in the overlapping case initial 1,9 + backfill 9,12,15 + live 16,17 the
overlapping log 9 is delivered only once, yielding 1,9,12,15,16,17. -/
theorem C4_backfill_correctness :
    deliveredTo (dispatchAll b4regs (b4merge [1, 2] [6, 7, 12, 15] [16, 17])) 0
      = [1, 2, 6, 7, 12, 15, 16, 17].map mkLog
    ∧ deliveredTo (dispatchAll b4regs (b4merge [1, 9] [9, 12, 15] [16, 17])) 0
      = [1, 9, 12, 15, 16, 17].map mkLog := by
  constructor <;> decide

/-! ## Broadcaster subscription lifecycle

Modelled from the spec: sections 4.1 and 5 (NewLogBroadcaster, Start,
AddDependents, DependentReady, Register, Unregister and the resubscribe
protocol are not in src/), with one deliberate departure forced by the test
TestLogBroadcaster_Register_ResubscribesToMostRecentlySeenBlock
(src/unnamed/part_001 lines 290 to 361): with GetLatestBlock returning 15
and the constructor argument 10 (the backfill depth), the very first
backfill GetLogs query, issued before any log has been observed, is
required to carry FromBlock = 5 = 15 - 10, not the latest block 15 that the
spec prescribes; see fromBlockOf and the C5 theorems.

Registry mutations arriving while a resubscribe is pending coalesce: a step
of the machine applies a whole batch of operations and then reconciles the
network subscription once, which is the observable behaviour the tests
demand (one SubscribeToLogs call for three rapid Register calls). -/

structure SubCall where
  addresses : List Nat
deriving DecidableEq, Repr

structure BackfillQuery where
  fromBlock : Nat
  addresses : List Nat
deriving DecidableEq, Repr

structure BroadcasterState where
  started : Bool
  pendingDependents : Nat
  dependentsReady : Bool
  addresses : List Nat
  highestSeen : Option Nat
  activeSub : Option (List Nat)
  subCalls : List SubCall
  unsubCalls : Nat
  queries : List BackfillQuery
deriving DecidableEq, Repr

def initialBroadcasterState : BroadcasterState :=
  { started := false, pendingDependents := 0, dependentsReady := false, addresses := []
    highestSeen := none, activeSub := none, subCalls := [], unsubCalls := 0, queries := [] }

/-- Lower bound of a backfill GetLogs query.  The fallback when no log has
been observed yet is latest - depth (clamped at zero by Nat subtraction),
the value forced by the FromBlock = 5 assertions of the test at
src/unnamed/part_001 lines 317 to 335 (latest block 15, constructor depth
10); the spec instead prescribes the latest block itself, see
claimFromBlock. -/
def fromBlockOf (highestSeen : Option Nat) (latest depth : Nat) : Nat :=
  match highestSeen with
  | some b => b
  | none => latest - depth

/-- The fallback exactly as the spec words it: the highest block number for
which a log has been observed, and the latest known block when no log has
ever been observed. -/
def claimFromBlock (highestSeen : Option Nat) (latest : Nat) : Nat :=
  match highestSeen with
  | some b => b
  | none => latest

inductive BOp where
  | start
  | addDependents (n : Nat)
  | dependentReady
  | register (addr : Nat)
  | unregister (addr : Nat)
  | observe (blockNumber : Nat)
deriving DecidableEq, Repr

/-- Registry and dependency-gate mutation of one operation (no subscription
side effects; those are reconciled once per batch in settleSubscription). -/
def applyReg (s : BroadcasterState) : BOp → BroadcasterState
  | .start =>
      if s.started then s
      else { s with started := true, dependentsReady := s.pendingDependents == 0 }
  | .addDependents n => { s with pendingDependents := s.pendingDependents + n }
  | .dependentReady =>
      if s.pendingDependents == 0 then s
      else
        { s with pendingDependents := s.pendingDependents - 1
                 dependentsReady := s.dependentsReady || (s.pendingDependents - 1 == 0) }
  | .register a =>
      if a ∈ s.addresses then s else { s with addresses := s.addresses ++ [a] }
  | .unregister a => { s with addresses := s.addresses.erase a }
  | .observe n =>
      { s with highestSeen := some (match s.highestSeen with
                                    | none => n
                                    | some m => max m n) }

/-- The subscription the broadcaster wants given its current state: none
before Start or while dependents are outstanding or while no address is
watched, otherwise one live subscription filtered on the watched set. -/
def desiredSub (s : BroadcasterState) : Option (List Nat) :=
  if s.started && s.dependentsReady && !s.addresses.isEmpty then some s.addresses else none

/-- Reconcile the network subscription after a batch of registry changes:
tear down the old subscription if it no longer matches, then issue one
backfill GetLogs query (lower bound fromBlockOf) followed by one
SubscribeToLogs call for the new watched set. -/
def settleSubscription (depth latest : Nat) (s : BroadcasterState) : BroadcasterState :=
  if s.activeSub = desiredSub s then s
  else
    let s1 := match s.activeSub with
              | some _ => { s with unsubCalls := s.unsubCalls + 1, activeSub := none }
              | none => s
    match desiredSub s with
    | none => s1
    | some addrs =>
        { s1 with
          queries := s1.queries ++ [⟨fromBlockOf s1.highestSeen latest depth, addrs⟩]
          subCalls := s1.subCalls ++ [⟨addrs⟩]
          activeSub := some addrs }

/-- One step of the broadcaster: a batch of operations that arrived before
the resubscribe loop ran again, followed by one subscription
reconciliation. -/
def stepBatch (depth latest : Nat) (s : BroadcasterState) (ops : List BOp) : BroadcasterState :=
  settleSubscription depth latest (ops.foldl applyReg s)

def runBroadcaster (depth latest : Nat) (batches : List (List BOp)) : BroadcasterState :=
  batches.foldl (stepBatch depth latest) initialBroadcasterState

theorem applyReg_queries (s : BroadcasterState) (o : BOp) : (applyReg s o).queries = s.queries := by
  cases o <;> simp [applyReg] <;> split <;> rfl

theorem applyReg_subCalls (s : BroadcasterState) (o : BOp) :
    (applyReg s o).subCalls = s.subCalls := by
  cases o <;> simp [applyReg] <;> split <;> rfl

theorem foldl_applyReg_queries (ops : List BOp) (s : BroadcasterState) :
    (ops.foldl applyReg s).queries = s.queries := by
  induction ops generalizing s with
  | nil => rfl
  | cons o rest ih => rw [List.foldl_cons, ih, applyReg_queries]

theorem foldl_applyReg_subCalls (ops : List BOp) (s : BroadcasterState) :
    (ops.foldl applyReg s).subCalls = s.subCalls := by
  induction ops generalizing s with
  | nil => rfl
  | cons o rest ih => rw [List.foldl_cons, ih, applyReg_subCalls]

/-- The running maximum of the block numbers observed so far, folded over
one operation. -/
def observedStep (a : Option Nat) : BOp → Option Nat
  | .observe n => some (match a with
                        | none => n
                        | some m => max m n)
  | _ => a

def observedBatch (a : Option Nat) (ops : List BOp) : Option Nat :=
  ops.foldl observedStep a

def observedTrace (batches : List (List BOp)) : Option Nat :=
  batches.foldl observedBatch none

theorem applyReg_highestSeen (s : BroadcasterState) (o : BOp) :
    (applyReg s o).highestSeen = observedStep s.highestSeen o := by
  cases o <;> simp [applyReg, observedStep] <;> split <;> rfl

theorem foldl_applyReg_highestSeen (ops : List BOp) (s : BroadcasterState) :
    (ops.foldl applyReg s).highestSeen = observedBatch s.highestSeen ops := by
  unfold observedBatch
  induction ops generalizing s with
  | nil => rfl
  | cons o rest ih => rw [List.foldl_cons, ih, applyReg_highestSeen, List.foldl_cons]

theorem settleSubscription_highestSeen (d l : Nat) (s : BroadcasterState) :
    (settleSubscription d l s).highestSeen = s.highestSeen := by
  unfold settleSubscription
  split
  · rfl
  · cases hd : desiredSub s <;> cases ha : s.activeSub <;> simp [hd, ha]

theorem stepBatch_highestSeen (d l : Nat) (s : BroadcasterState) (ops : List BOp) :
    (stepBatch d l s ops).highestSeen = observedBatch s.highestSeen ops := by
  unfold stepBatch
  rw [settleSubscription_highestSeen, foldl_applyReg_highestSeen]

theorem runBroadcaster_highestSeen (d l : Nat) (batches : List (List BOp)) :
    (runBroadcaster d l batches).highestSeen = observedTrace batches := by
  unfold runBroadcaster observedTrace
  have : initialBroadcasterState.highestSeen = none := rfl
  rw [← this]
  generalize initialBroadcasterState = s
  induction batches generalizing s with
  | nil => rfl
  | cons b rest ih => rw [List.foldl_cons, ih, stepBatch_highestSeen, List.foldl_cons]

/-- C5 counterexample: in the modelled scenario of
TestLogBroadcaster_Register_ResubscribesToMostRecentlySeenBlock (latest
block 15, backfill depth 10, Start then one Register, no log observed yet),
the backfill query the broadcaster issues carries fromBlock 5 = 15 - 10, as
the test at src/unnamed/part_001 lines 317 to 325 asserts, whereas the rule
stated by the claim (claimFromBlock: the latest known block when nothing
has been observed) demands 15. -/
theorem C5_resubscribe_lower_bound_counterexample :
    (runBroadcaster 10 15 [[BOp.start], [BOp.register 1]]).queries
      = [{ fromBlock := 5, addresses := [1] }]
    ∧ claimFromBlock (runBroadcaster 10 15 [[BOp.start]]).highestSeen 15 = 15
    ∧ (5 : Nat) ≠ 15 := by
  decide

/-- C5 (amended): every backfill GetLogs query issued by the resubscribe
protocol uses fromBlock equal to the highest block number for which a log
has already been observed on any currently active watch, with no decrement
(the bound is inclusive, accepting one block of overlap deduplicated by the
Ledger); if no log has ever been observed, fromBlock equals the latest
known block MINUS the backfill depth passed to the constructor (clamped at
zero), not the latest block itself.  Stated over an arbitrary operation
trace: any query newly issued by the next batch carries exactly that lower
bound. -/
theorem C5_resubscribe_lower_bound_amended (d l : Nat) (batches : List (List BOp))
    (b : List BOp) (q : BackfillQuery)
    (hq : q ∈ (stepBatch d l (runBroadcaster d l batches) b).queries)
    (hnew : q ∉ (runBroadcaster d l batches).queries) :
    q.fromBlock = fromBlockOf (observedTrace (batches ++ [b])) l d := by
  have hobs : observedTrace (batches ++ [b]) = observedBatch (observedTrace batches) b := by
    unfold observedTrace
    rw [List.foldl_append]
    rfl
  set s := runBroadcaster d l batches with hs
  set s2 := b.foldl applyReg s with hs2
  have hq2 : (stepBatch d l s b).queries = (settleSubscription d l s2).queries := rfl
  have hs2q : s2.queries = s.queries := foldl_applyReg_queries b s
  have hs2h : s2.highestSeen = observedTrace (batches ++ [b]) := by
    rw [hs2, foldl_applyReg_highestSeen, hs, runBroadcaster_highestSeen, hobs]
  rw [hq2] at hq
  unfold settleSubscription at hq
  split at hq
  · rw [hs2q] at hq
    exact absurd hq hnew
  · rcases ha : s2.activeSub with _ | old <;> rcases hd : desiredSub s2 with _ | addrs <;>
      simp only [ha, hd] at hq
    · rw [hs2q] at hq
      exact absurd hq hnew
    · simp only [List.mem_append, List.mem_singleton] at hq
      rcases hq with hq | hq
      · rw [hs2q] at hq
        exact absurd hq hnew
      · rw [hq]
        rw [← hs2h]
    · rw [hs2q] at hq
      exact absurd hq hnew
    · simp only [List.mem_append, List.mem_singleton] at hq
      rcases hq with hq | hq
      · rw [hs2q] at hq
        exact absurd hq hnew
      · rw [hq, ← hs2h]

/-- C5 witness: the first query of the modelled test scenario (never
observed a log, latest 15, depth 10) carries fromBlock 15 - 10 = 5; the
second, issued after a log at height 5 was observed, carries the highest
observed block 5. -/
theorem C5_resubscribe_lower_bound_amended_witness :
    ({ fromBlock := 5, addresses := [1] } : BackfillQuery).fromBlock
      = fromBlockOf (observedTrace ([[BOp.start]] ++ [[BOp.register 1]])) 15 10
    ∧ ({ fromBlock := 5, addresses := [1, 2] } : BackfillQuery).fromBlock
      = fromBlockOf
          (observedTrace ([[BOp.start], [BOp.register 1], [BOp.observe 5]] ++ [[BOp.register 2]]))
          15 10 :=
  ⟨C5_resubscribe_lower_bound_amended 10 15 [[BOp.start]] [BOp.register 1]
      { fromBlock := 5, addresses := [1] } (by decide) (by decide),
    C5_resubscribe_lower_bound_amended 10 15 [[BOp.start], [BOp.register 1], [BOp.observe 5]]
      [BOp.register 2] { fromBlock := 5, addresses := [1, 2] } (by decide) (by decide)⟩

theorem foldl_replicate_fixed {α β : Type} (f : α → β → α) (s : α) (b : β) (h : f s b = s) :
    ∀ n, List.foldl f s (List.replicate n b) = s := by
  intro n
  induction n with
  | zero => rfl
  | succ m ih => rw [List.replicate_succ, List.foldl_cons, h, ih]

/-- The operation prefix of TestLogBroadcaster_AwaitsInitialSubscribersOnStartup
(src/unnamed/part_001 lines 49 to 97): arm the dependent countdown at 2,
Start, and register one listener. -/
def gatePrefix : List (List BOp) := [[BOp.addDependents 2], [BOp.start], [BOp.register 0]]

/-- C7: dependent gating.  After Start() with a dependent countdown armed at
2 via AddDependents(2) and a listener registered, no network subscription is
established while fewer than two DependentReady() calls have occurred, and
from the second DependentReady() call on there has been exactly one
SubscribeToLogs call: never zero, never more than one (extra DependentReady
calls are ignored), and never prematurely. -/
theorem C7_dependent_gating (k : Nat) :
    ((runBroadcaster 10 123
        (gatePrefix ++ List.replicate k [BOp.dependentReady])).subCalls).length
      = if k < 2 then 0 else 1 := by
  match k with
  | 0 => decide
  | 1 => decide
  | n + 2 =>
      rw [if_neg (by omega)]
      have hsplit : List.replicate (n + 2) [BOp.dependentReady]
          = List.replicate 2 [BOp.dependentReady] ++ List.replicate n [BOp.dependentReady] := by
        rw [← List.replicate_add, Nat.add_comm]
      unfold runBroadcaster
      rw [hsplit, ← List.append_assoc, List.foldl_append]
      have hfix : stepBatch 10 123
          (List.foldl (stepBatch 10 123) initialBroadcasterState
            (gatePrefix ++ List.replicate 2 [BOp.dependentReady])) [BOp.dependentReady]
          = List.foldl (stepBatch 10 123) initialBroadcasterState
              (gatePrefix ++ List.replicate 2 [BOp.dependentReady]) := by decide
      rw [foldl_replicate_fixed _ _ _ hfix]
      decide

theorem settleSubscription_subCalls_le (d l : Nat) (s : BroadcasterState) :
    (settleSubscription d l s).subCalls.length ≤ s.subCalls.length + 1 := by
  unfold settleSubscription
  split
  · omega
  · rcases ha : s.activeSub with _ | old <;> rcases hd : desiredSub s with _ | addrs <;>
      simp [ha, hd]

/-- C9: resubscribe coalescing.  A batch of trigger requests that arrives
while a resubscribe is pending is absorbed into a single reconciliation:
any batch of operations causes at most one SubscribeToLogs call, and in the
modelled scenario of TestLogBroadcaster_ResubscribesOnAddOrRemoveContract
three listeners for three distinct addresses registered in quick succession
(one batch) yield exactly one SubscribeToLogs call whose address filter
carries all three addresses, with no subscription having existed before. -/
theorem C9_resubscribe_coalescing :
    (∀ (d l : Nat) (s : BroadcasterState) (batch : List BOp),
      (stepBatch d l s batch).subCalls.length ≤ s.subCalls.length + 1)
    ∧ (runBroadcaster 10 123 [[BOp.start]]).subCalls = []
    ∧ (stepBatch 10 123 (runBroadcaster 10 123 [[BOp.start]])
        [BOp.register 1, BOp.register 2, BOp.register 3]).subCalls
      = [{ addresses := [1, 2, 3] }] := by
  refine ⟨?_, by decide, by decide⟩
  intro d l s batch
  unfold stepBatch
  calc (settleSubscription d l (batch.foldl applyReg s)).subCalls.length
      ≤ (batch.foldl applyReg s).subCalls.length + 1 := settleSubscription_subCalls_le _ _ _
    _ = s.subCalls.length + 1 := by rw [foldl_applyReg_subCalls]

/-! ## Decoding Log Listener

Modelled from the spec: section 4.3 (NewDecodingLogListener is not in src/;
it is exercised by TestDecodingLogListener, src/unnamed/part_001 lines 363
to 416, and instantiated by fluxAggregator.SubscribeToLogs in
src/core/services/eth/contracts/FluxAggregator.go lines 74 to 78).  A
broadcast holds either the raw log or a typed record that embeds the raw
log (as the Go structs LogNewRound and LogAnswerUpdated embed eth.Log), so
the identity-relevant fields are carried over by construction.  The
ABI-aware codec is a parameter: decoding a log under a type tag either
yields the decoded field values or fails. -/

inductive HeldLog where
  | raw (l : LogEvent)
  | decoded (tag : Nat) (l : LogEvent) (fields : List Int)
deriving DecidableEq, Repr

/-- The log identity carried by a broadcast; a decoded record embeds the raw
log, so it keeps the block hash, block number and index of the raw log. -/
def HeldLog.identity : HeldLog → Nat × Nat × Nat
  | .raw l => l.identity
  | .decoded _ l _ => l.identity

structure Broadcast where
  held : HeldLog
deriving DecidableEq, Repr

/-- UpdateLog replaces the held log of a broadcast in place. -/
def updateLog (_b : Broadcast) (v : HeldLog) : Broadcast :=
  { held := v }

/-- The primary (first) topic of a raw log. -/
def primaryTopic (l : LogEvent) : Nat :=
  l.topics.headD 0

/-- Look the primary topic up in the topic to type table. -/
def lookupLogType (table : List (Nat × Nat)) (topic : Nat) : Option Nat :=
  (table.find? (fun p => p.1 == topic)).map (fun p => p.2)

/-- HandleLog of the Decoding Log Listener.  Returns the pair (broadcast,
error) forwarded to the single inner listener.  With a non-nil error the
broadcast is forwarded unchanged; with an unknown primary topic the raw log
is forwarded unchanged; with a known topic the log is decoded and the
broadcast updated via updateLog before forwarding; a decode failure is
forwarded as an error.  A broadcast already holding a decoded record is
forwarded unchanged (the Go listener would only ever see a raw log here). -/
def decodingHandleLog (table : List (Nat × Nat))
    (dec : Nat → LogEvent → Except String (List Int))
    (b : Broadcast) (err : Option String) : Broadcast × Option String :=
  match err with
  | some e => (b, some e)
  | none =>
      match b.held with
      | .decoded _ _ _ => (b, none)
      | .raw l =>
          match lookupLogType table (primaryTopic l) with
          | none => (b, none)
          | some tag =>
              match dec tag l with
              | .error e => (b, some e)
              | .ok fields => (updateLog b (.decoded tag l fields), none)

/-- C8: Decoding Log Listener behaviour.  On HandleLog(broadcast, err): a
non-nil error forwards broadcast and error unchanged to the inner listener;
a raw log whose primary topic has no entry in the topic to type table is
forwarded unchanged; a raw log with a table entry is decoded into the
registered typed record, the held log is replaced via updateLog with the
identity-relevant fields preserved (the decoded record embeds the raw log,
so its identity equals the identity held before), and forwarded with nil
error; a decode failure is surfaced to the inner listener as an error, with
the broadcast unchanged, not swallowed. -/
theorem C8_decoding_log_listener (table : List (Nat × Nat))
    (dec : Nat → LogEvent → Except String (List Int)) :
    (∀ (b : Broadcast) (e : String), decodingHandleLog table dec b (some e) = (b, some e))
    ∧ (∀ l : LogEvent, lookupLogType table (primaryTopic l) = none →
        decodingHandleLog table dec ⟨.raw l⟩ none = (⟨.raw l⟩, none))
    ∧ (∀ (l : LogEvent) (tag : Nat) (fields : List Int),
        lookupLogType table (primaryTopic l) = some tag → dec tag l = .ok fields →
        decodingHandleLog table dec ⟨.raw l⟩ none
            = (updateLog ⟨.raw l⟩ (.decoded tag l fields), none)
          ∧ (updateLog ⟨.raw l⟩ (.decoded tag l fields)).held.identity
            = (Broadcast.mk (.raw l)).held.identity)
    ∧ (∀ (l : LogEvent) (tag : Nat) (e : String),
        lookupLogType table (primaryTopic l) = some tag → dec tag l = .error e →
        decodingHandleLog table dec ⟨.raw l⟩ none = (⟨.raw l⟩, some e)) := by
  refine ⟨?_, ?_, ?_, ?_⟩
  · intro b e
    rfl
  · intro l hl
    simp [decodingHandleLog, hl]
  · intro l tag fields hl hd
    constructor
    · simp [decodingHandleLog, hl, hd]
    · rfl
  · intro l tag e hl hd
    simp [decodingHandleLog, hl, hd]

/-- The concrete raw log used by the C8 witness: primary topic 7. -/
def rawLogW : LogEvent :=
  { address := 0, blockHash := 9, blockNumber := 3, txIndex := 1, logIndex := 2
    topics := [7], payload := [] }

/-- The concrete codec used by the C8 witness. -/
def decW : Nat → LogEvent → Except String (List Int) :=
  fun tag _ => .ok [Int.ofNat tag, 42]

/-- C8 witness: a one-entry table mapping topic 7 to type tag 1 and a codec
that decodes successfully, applied to a log with primary topic 7, and the
error-forwarding case on a concrete input. -/
theorem C8_decoding_log_listener_witness :
    (decodingHandleLog [(7, 1)] decW ⟨.raw rawLogW⟩ none
      = (updateLog ⟨.raw rawLogW⟩ (.decoded 1 rawLogW [Int.ofNat 1, 42]), none))
    ∧ decodingHandleLog [(7, 1)] decW ⟨.raw rawLogW⟩ (some "oh no!")
      = (⟨.raw rawLogW⟩, some "oh no!") := by
  constructor
  · exact ((C8_decoding_log_listener [(7, 1)] decW).2.2.1
      rawLogW 1 [Int.ofNat 1, 42] (by decide) rfl).1
  · exact (C8_decoding_log_listener [(7, 1)] decW).1 ⟨.raw rawLogW⟩ "oh no!"

/-! ## VRF (src/core/services/vrf/vrf.go)

Faithful embedding of the vrf package.  The secp256k1 and utils packages it
imports are not in src/, so the curve point operations
(secp256k1.Secp256k1 Point Mul/Add/Neg/Equal, ValidPublicKey, LongMarshal,
EthereumAddress, SetCoordinates) and the hash primitives (utils.Keccak256,
utils.MustHash, both total in practice) are parameters, gathered in
CurveOps; big.Int values are Int (or Nat where the source values are
provably non-negative), big.Int.Exp is the standard square-and-multiply
modular exponentiation, and the two unbounded rehash loops of ZqHash and
HashToCurve carry fuel (the source hashes until the candidate is small
enough or is a curve ordinate; the fuel branch replaces only divergence).
The nonce that GenerateProof samples from crypto/rand is passed as an
explicit argument. -/

namespace vrf

/-- Number of elements of the secp256k1 base field (vrf.go line 52). -/
def fieldSize : Nat :=
  0xFFFFFFFFFFFFFFFFFFFFFFFFFFFFFFFFFFFFFFFFFFFFFFFFFFFFFFFEFFFFFC2F

/-- Modelled from the spec: secp256k1.GroupOrder (the secp256k1 package is
not in src/); the standard secp256k1 group order, bound in vrf.go line 56
as Order. -/
def GroupOrder : Nat :=
  0xFFFFFFFFFFFFFFFFFFFFFFFFFFFFFFFEBAAEDCE6AF48A03BBFD25E8CD0364141

def Order : Nat := GroupOrder

/-- Square-and-multiply modular exponentiation: the embedding of
big.Int.Exp used by vrf.go (the fuel 257 covers every exponent below
2 to the 257, in particular eulersCriterionPower and sqrtPower). -/
def powModFuel : Nat → Nat → Nat → Nat → Nat
  | 0, _, _, m => 1 % m
  | fuel + 1, b, e, m =>
      if e = 0 then 1 % m
      else
        let r := powModFuel fuel ((b * b) % m) (e / 2) m
        if e % 2 = 1 then (r * (b % m)) % m else r

def expMod (b e m : Nat) : Nat := powModFuel 257 b e m

/-- (P-1)/2, half the Fermat little theorem exponent (vrf.go line 74). -/
def eulersCriterionPower : Nat := (fieldSize - 1) / 2

/-- (P+1)/4 (vrf.go line 76). -/
def sqrtPower : Nat := (fieldSize + 1) / 4

/-- IsSquare of vrf.go line 80 (named apart from the Mathlib predicate). -/
def IsSquareF (x : Nat) : Bool := expMod x eulersCriterionPower fieldSize == 1

/-- SquareRoot of vrf.go line 85. -/
def SquareRoot (x : Nat) : Nat := expMod x sqrtPower fieldSize

/-- YSquared of vrf.go line 90: x^3 + 7 mod P. -/
def YSquared (x : Nat) : Nat := (expMod x 3 fieldSize + 7) % fieldSize

/-- IsCurveXOrdinate of vrf.go line 95. -/
def IsCurveXOrdinate (x : Nat) : Bool := IsSquareF (YSquared x)

/-- big.Int.BitLen (bit length of the absolute value), structurally
recursive on a fuel that covers every value below 2 to the 300. -/
def bitLenFuel : Nat → Nat → Nat
  | 0, _ => 0
  | fuel + 1, n => if n = 0 then 0 else bitLenFuel fuel (n / 2) + 1

def bitLen (n : Nat) : Nat := bitLenFuel 300 n

abbrev Bytes := List Nat

/-- big.Int.SetBytes: big-endian bytes to number. -/
def setBytes (bs : Bytes) : Nat := bs.foldl (fun a b => a * 256 + b) 0

/-- Big-endian serialisation on a fixed byte width (leading zero padded). -/
def natToBytes : Nat → Nat → Bytes
  | 0, _ => []
  | k + 1, x => natToBytes k (x / 256) ++ [x % 256]

/-- uint256ToBytes32 of vrf.go line 131 (LeftPadBytes of the byte
representation; the panic guard on values above 256 bits never fires on the
call sites, every argument being already reduced below the field size or
the group order). -/
def uint256ToBytes32 (x : Nat) : Bytes := natToBytes 32 x

/-- Modelled from the spec: the primitives the vrf package consumes from
the secp256k1 and utils packages (not in src/).  mul s p is the scalar
multiple s of the point p (mul s generator embeds Mul(s, nil)); keccak is
utils.Keccak256 (32 bytes out, total); mustHash is the composite
SetBytes(utils.MustHash(msg).Bytes()). -/
structure CurveOps (Pt : Type) where
  generator : Pt
  mul : Nat → Pt → Pt
  add : Pt → Pt → Pt
  neg : Pt → Pt
  ptEq : Pt → Pt → Bool
  valid : Pt → Bool
  longMarshal : Pt → Bytes
  ethereumAddress : Pt → Except String Bytes
  setCoordinates : Nat → Nat → Pt
  keccak : Bytes → Bytes
  mustHash : Bytes → Nat

/-- Modelled from the spec: secp256k1.IntToScalar reduces a big.Int modulo
the group order (Int.emod is non-negative like big.Int.Mod). -/
def intToScalar (x : Int) : Nat := (x % (Order : Int)).toNat

/-- Modelled from the spec: secp256k1.RepresentsScalar, a value of at most
256 bits. -/
def representsScalar (x : Int) : Bool := decide (bitLen x.natAbs ≤ 256)

/-- The rehash loop of ZqHash (vrf.go lines 150 to 152): hash until the
value is below the field size. -/
def zqHashLoop (mustHashF : Bytes → Nat) : Nat → Nat → Except String Nat
  | 0, _ => .error "out of fuel in ZqHash"
  | fuel + 1, rv =>
      if rv < fieldSize then .ok rv
      else zqHashLoop mustHashF fuel (mustHashF (uint256ToBytes32 rv))

def vrfFuel : Nat := 128

/-- ZqHash of vrf.go line 143: panics (here, errors) on messages above 32
bytes, then rehashes until the value lies in the field. -/
def ZqHash (mustHashF : Bytes → Nat) (msg : Bytes) : Except String Nat :=
  if 32 < msg.length then .error "panic: message too long"
  else zqHashLoop mustHashF vrfFuel (setBytes msg)

/-- initialXOrdinate of vrf.go line 156. -/
def initialXOrdinate {Pt : Type} (ops : CurveOps Pt) (p : Pt) (input : Int) :
    Except String Nat :=
  if !(ops.valid p && decide (bitLen input.natAbs ≤ 256)) then
    .error "bad input to vrf.HashToCurve"
  else
    ZqHash ops.mustHash (ops.keccak (ops.longMarshal p ++ uint256ToBytes32 input.natAbs))

/-- The rehash loop of HashToCurve (vrf.go lines 182 to 193): rehash until
the candidate is a curve x ordinate, then take the square root, flipping
the point when y is odd. -/
def hashToCurveLoop {Pt : Type} (ops : CurveOps Pt) : Nat → Nat → Except String Pt
  | 0, _ => .error "out of fuel in HashToCurve"
  | fuel + 1, x =>
      if IsCurveXOrdinate x then
        let y := SquareRoot (YSquared x)
        let rv := ops.setCoordinates x y
        .ok (if y % 2 = 1 then ops.neg rv else rv)
      else
        match ZqHash ops.mustHash (ops.keccak (uint256ToBytes32 x)) with
        | .error e => .error e
        | .ok nx => hashToCurveLoop ops fuel nx

/-- HashToCurve of vrf.go line 175 (the ordinates callback, a no-op
function at both call sites, is dropped). -/
def HashToCurve {Pt : Type} (ops : CurveOps Pt) (p : Pt) (input : Int) : Except String Pt :=
  match initialXOrdinate ops p input with
  | .error e => .error e
  | .ok x => hashToCurveLoop ops vrfFuel x

/-- ScalarFromCurvePoints of vrf.go line 204 (the panic on invalid points
becomes an error value). -/
def ScalarFromCurvePoints {Pt : Type} (ops : CurveOps Pt) (hpt pk gamma : Pt)
    (uWitness : Bytes) (v : Pt) : Except String Nat :=
  if !(ops.valid hpt && ops.valid pk && ops.valid gamma && ops.valid v) then
    .error "panic: bad arguments to vrf.ScalarFromCurvePoints"
  else
    .ok (ops.mustHash (ops.longMarshal hpt ++ ops.longMarshal pk ++ ops.longMarshal gamma
          ++ ops.longMarshal v ++ uWitness))

/-- linearCombination of vrf.go line 220: c p1 + s p2. -/
def linearCombination {Pt : Type} (ops : CurveOps Pt) (c : Int) (p1 : Pt) (s : Int) (p2 : Pt) :
    Pt :=
  ops.add (ops.mul (intToScalar c) p1) (ops.mul (intToScalar s) p2)

/-- Proof of vrf.go line 231. -/
structure Proof (Pt : Type) where
  PublicKey : Pt
  Gamma : Pt
  C : Int
  S : Int
  Seed : Int
  Output : Int
deriving DecidableEq, Repr

/-- WellFormed of vrf.go line 247. -/
def WellFormed {Pt : Type} (ops : CurveOps Pt) (p : Proof Pt) : Bool :=
  ops.valid p.PublicKey && ops.valid p.Gamma && representsScalar p.C
    && representsScalar p.S && decide (bitLen p.Output.natAbs ≤ 256)

/-- checkCGammaNotEqualToSHash of vrf.go line 255. -/
def checkCGammaNotEqualToSHash {Pt : Type} (ops : CurveOps Pt) (c : Int) (gamma : Pt)
    (s : Int) (hpt : Pt) : Option String :=
  let cGamma := ops.mul (intToScalar c) gamma
  let sHash := ops.mul (intToScalar s) hpt
  if ops.ptEq cGamma sHash then
    some "pick a different nonce; c*gamma = s*hash, with this one"
  else none

/-- Verify of vrf.go line 268: the Go pair (bool, error) is an Except, the
only nil-error results being ok true and ok false. -/
def Verify {Pt : Type} (ops : CurveOps Pt) (proof : Proof Pt) : Except String Bool :=
  if !WellFormed ops proof then .error "badly-formatted proof"
  else
    match HashToCurve ops proof.PublicKey proof.Seed with
    | .error e => .error e
    | .ok h =>
        match checkCGammaNotEqualToSHash ops proof.C proof.Gamma proof.S h with
        | some _ => .error "c*gamma = s*hash (disallowed in solidity verifier)"
        | none =>
            let uPrime := linearCombination ops proof.C proof.PublicKey proof.S ops.generator
            let vPrime := linearCombination ops proof.C proof.Gamma proof.S h
            match ops.ethereumAddress uPrime with
            | .error e => .error e
            | .ok uWitness =>
                match ScalarFromCurvePoints ops h proof.PublicKey proof.Gamma uWitness vPrime with
                | .error e => .error e
                | .ok cPrime =>
                    let output := setBytes (ops.keccak (ops.longMarshal proof.Gamma))
                    .ok (decide (proof.C = (cPrime : Int))
                      && decide (proof.Output = (output : Int)))

/-- generateProofWithNonce of vrf.go line 300 (panics become errors; the
final self-verification of the constructed proof is kept). -/
def generateProofWithNonce {Pt : Type} (ops : CurveOps Pt) (secretKey seed nonce : Int) :
    Except String (Proof Pt) :=
  if !(representsScalar secretKey && decide (bitLen seed.natAbs ≤ 256)) then
    .error "badly-formatted key or seed"
  else
    let publicKey := ops.mul (intToScalar secretKey) ops.generator
    match HashToCurve ops publicKey seed with
    | .error e => .error e
    | .ok h =>
        let gamma := ops.mul (intToScalar secretKey) h
        let sm := intToScalar nonce
        let u := ops.mul sm ops.generator
        match ops.ethereumAddress u with
        | .error e => .error e
        | .ok uWitness =>
            let v := ops.mul sm h
            match ScalarFromCurvePoints ops h publicKey gamma uWitness v with
            | .error e => .error e
            | .ok c =>
                let s := (nonce - (c : Int) * secretKey) % (Order : Int)
                match checkCGammaNotEqualToSHash ops (c : Int) gamma s h with
                | some e => .error e
                | none =>
                    let outputHash := ops.keccak (ops.longMarshal gamma)
                    let rv : Proof Pt :=
                      { PublicKey := publicKey, Gamma := gamma, C := (c : Int), S := s
                        Seed := seed, Output := (setBytes outputHash : Int) }
                    match Verify ops rv with
                    | .error e => .error ("panic: constructed invalid proof: " ++ e)
                    | .ok valid =>
                        if valid then .ok rv else .error "panic: constructed invalid proof"

/-- GenerateProof of vrf.go line 347, with the crypto/rand nonce passed
explicitly. -/
def GenerateProof {Pt : Type} (ops : CurveOps Pt) (secretKey seed nonce : Int) :
    Except String (Proof Pt) :=
  if secretKey < 0 ∨ seed < 0 then
    .error "seed and/or secret key must be non-negative"
  else if ¬secretKey < (Order : Int) ∨ ¬seed < (Order : Int) then
    .error "seed and/or secret key must be less than group order"
  else generateProofWithNonce ops secretKey seed nonce

end vrf

deriving instance DecidableEq for Except

namespace vrf

/-- Inversion of the success path of GenerateProof: a proof it returns was
built at line 326 of vrf.go with PublicKey = secretKey * Generator,
Seed = seed and Output = SetBytes(Keccak256(LongMarshal(Gamma))), and it
passed the self-verification of line 334, so Verify returns (true, nil). -/
theorem generateProof_ok {Pt : Type} (ops : CurveOps Pt) (secretKey seed nonce : Int)
    (p : Proof Pt) (h : GenerateProof ops secretKey seed nonce = .ok p) :
    Verify ops p = .ok true
    ∧ p.PublicKey = ops.mul secretKey.toNat ops.generator
    ∧ p.Seed = seed
    ∧ p.Output = (setBytes (ops.keccak (ops.longMarshal p.Gamma)) : Int) := by
  unfold GenerateProof at h
  split at h
  · exact absurd h (by simp)
  · split at h
    · exact absurd h (by simp)
    · rename_i hneg hord
      push_neg at hneg hord
      obtain ⟨hsk0, _⟩ := hneg
      obtain ⟨hskord, _⟩ := hord
      have hscalar : intToScalar secretKey = secretKey.toNat := by
        unfold intToScalar
        rw [Int.emod_eq_of_lt hsk0 hskord]
      simp only [generateProofWithNonce] at h
      split at h
      · exact absurd h (by simp)
      · split at h
        · exact absurd h (by simp)
        · split at h
          · exact absurd h (by simp)
          · split at h
            · exact absurd h (by simp)
            · split at h
              · exact absurd h (by simp)
              · split at h
                · exact absurd h (by simp)
                · rename_i hverify
                  split at h
                  · rename_i hvalid
                    injection h with hp
                    subst hp
                    refine ⟨?_, ?_, rfl, rfl⟩
                    · rw [hverify, hvalid]
                    · rw [← hscalar]
                  · exact absurd h (by simp)

/-- C10: VRF round trip.  Inputs outside 0 led secretKey, seed less than
Order are rejected with an error; and whenever GenerateProof returns a
proof p without error (for any implementation of the curve and hash
primitives and any nonce), p passes Verify with (true, nil), p.PublicKey is
secretKey times the generator, p.Seed is the seed, and p.Output is the
value of the Keccak256 hash of the long-marshalled Gamma point. -/
theorem C10_vrf_round_trip :
    (∀ (Pt : Type) (ops : CurveOps Pt) (secretKey seed nonce : Int),
      secretKey < 0 ∨ seed < 0 ∨ (Order : Int) ≤ secretKey ∨ (Order : Int) ≤ seed →
      ∃ e, GenerateProof ops secretKey seed nonce = Except.error e)
    ∧ (∀ (Pt : Type) (ops : CurveOps Pt) (secretKey seed nonce : Int) (p : Proof Pt),
      GenerateProof ops secretKey seed nonce = Except.ok p →
      Verify ops p = Except.ok true
      ∧ p.PublicKey = ops.mul secretKey.toNat ops.generator
      ∧ p.Seed = seed
      ∧ p.Output = (setBytes (ops.keccak (ops.longMarshal p.Gamma)) : Int)) := by
  constructor
  · intro Pt ops secretKey seed nonce hbad
    unfold GenerateProof
    by_cases h1 : secretKey < 0 ∨ seed < 0
    · rw [if_pos h1]
      exact ⟨_, rfl⟩
    · rw [if_neg h1]
      push_neg at h1
      have h2 : ¬secretKey < (Order : Int) ∨ ¬seed < (Order : Int) := by
        rcases hbad with h | h | h | h
        · exact absurd h (by omega)
        · exact absurd h (by omega)
        · exact Or.inl (by omega)
        · exact Or.inr (by omega)
      rw [if_pos h2]
      exact ⟨_, rfl⟩
  · intro Pt ops secretKey seed nonce p h
    exact generateProof_ok ops secretKey seed nonce p h

/-- A concrete instantiation of the abstract curve and hash primitives for
the witness: the additive group of the integers modulo the group order,
with generator 1; the hashes are constants picked so that the very first
x candidate of HashToCurve, the value 1, is a genuine curve ordinate of the
real secp256k1 field (1^3 + 7 = 8 is a quadratic residue modulo the field
size, checked by the 255-step modular exponentiation of IsSquareF). -/
def toyCurveOps : CurveOps Nat :=
  { generator := 1
    mul := fun s p => (s * p) % Order
    add := fun a b => (a + b) % Order
    neg := fun p => p
    ptEq := fun a b => a == b
    valid := fun _ => true
    longMarshal := fun p => natToBytes 32 p
    ethereumAddress := fun p => .ok (natToBytes 20 p)
    setCoordinates := fun x _ => x % Order
    keccak := fun _ => uint256ToBytes32 1
    mustHash := fun _ => 3 }

/-- The proof object GenerateProof toyCurveOps 1 5 7 returns. -/
def toyProof : Proof Nat :=
  { PublicKey := 1, Gamma := 1, C := 3, S := 4, Seed := 5, Output := 1 }

/-- C10 witness: a negative secret key is rejected, and the concrete run
GenerateProof toyCurveOps 1 5 7 = ok toyProof (evaluated through the real
field arithmetic of IsSquareF and SquareRoot) satisfies every conclusion of
the round trip. -/
theorem C10_vrf_round_trip_witness :
    (∃ e, GenerateProof toyCurveOps (-1) 5 7 = Except.error e)
    ∧ (Verify toyCurveOps toyProof = Except.ok true
       ∧ toyProof.PublicKey = toyCurveOps.mul (Int.toNat 1) toyCurveOps.generator
       ∧ toyProof.Seed = 5
       ∧ toyProof.Output = (setBytes (toyCurveOps.keccak (toyCurveOps.longMarshal toyProof.Gamma))
          : Int)) :=
  ⟨C10_vrf_round_trip.1 Nat toyCurveOps (-1) 5 7 (Or.inl (by decide)),
   C10_vrf_round_trip.2 Nat toyCurveOps 1 5 7 toyProof (by decide)⟩

end vrf
